import Mathlib

/-!
Verification development for the AUTH_FILE microservices repository
(auth-service + file-service). The JavaScript sources are embedded
shallowly: JWT issuance/verification (`jwtUtils.js`), the file-service
bearer-authentication middleware (`middleware/auth.js`), the file
repository over a Mongo-like document store (`fileRepository.js`,
`models/File.js`), the file controller (`fileController.js`), and the
auth controller (`authController.js`, `userRepository.js`).

Conventions of the embedding:
* time is a `Nat` of seconds; `Buffer`s are `List UInt8`;
  JS `parseInt` results are `Option Int` (`none` = `NaN`);
* a JWT string is either a structurally valid signed token or garbage;
  the signature scheme is symbolic: a token verifies against a secret
  iff it was signed with that same secret;
* the document store is a `List` of records; Mongo `findOne` /
  `findOneAndUpdate` / `findOneAndDelete` act on the first match;
* bcrypt is symbolic: `comparePassword p h` holds iff `h = hashPassword p`.
-/

namespace AuthFile

/-- The `{status, code, message}` triple of the error envelope both
services produce (`errorHandler.js` adds `path`/`timestamp`, which no
claim mentions). -/
structure ErrResponse where
  status : Nat
  code : String
  message : String
deriving DecidableEq, Repr

/-! ## JWT layer (`jsonwebtoken` + `jwtUtils.js`) -/

/-- The claims payload both generators build: `{userId, type}`. -/
structure JwtPayload where
  userId : String
  type : String
deriving DecidableEq, Repr

/-- A structurally valid signed token: payload, registered claims, and
the secret it was signed with (symbolic signature). -/
structure SignedToken where
  payload : JwtPayload
  iat : Nat
  exp : Nat
  nbf : Option Nat
  issuer : String
  audience : String
  secret : String
deriving DecidableEq, Repr

/-- A wire-level token string: either parses as a signed token or not. -/
inductive TokenString where
  | signed (tok : SignedToken)
  | garbage (raw : String)
deriving DecidableEq, Repr

/-- What `jwt.verify` hands back on success (payload plus `iat`/`exp`). -/
structure DecodedJwt where
  userId : String
  type : String
  iat : Nat
  exp : Nat
deriving DecidableEq, Repr

/-- `jwt.sign(payload, secret, {expiresIn, issuer, audience})`:
`exp = iat + expiresIn`, no `nbf` claim. -/
def jwtSign (payload : JwtPayload) (secret : String) (now expiresIn : Nat)
    (issuer audience : String) : SignedToken :=
  { payload := payload, iat := now, exp := now + expiresIn, nbf := none,
    issuer := issuer, audience := audience, secret := secret }

/-- `jwt.verify(token, secret)` with the error messages `jwtUtils.js`
translates the library errors into: bad parse / wrong signature →
`Invalid token`, `now < nbf` → `Token not active yet`, `exp ≤ now` →
`Token has expired`. No `type` claim is inspected. -/
def jwtVerify (t : TokenString) (secret : String) (now : Nat) :
    Except String DecodedJwt :=
  match t with
  | .garbage _ => .error "Invalid token"
  | .signed tok =>
    if tok.secret ≠ secret then .error "Invalid token"
    else if (tok.nbf.map (fun n => decide (now < n))).getD false then
      .error "Token not active yet"
    else if tok.exp ≤ now then .error "Token has expired"
    else .ok ⟨tok.payload.userId, tok.payload.type, tok.iat, tok.exp⟩

/-- `config.jwt.expiresIn = '24h'`, in seconds. -/
def accessExpiresIn : Nat := 86400

/-- `generateRefreshToken` hard-codes `expiresIn: '7d'`, in seconds. -/
def refreshExpiresIn : Nat := 604800

/-- `JWTUtils.generateToken(userId, options)`: rejects a falsy userId,
otherwise signs `{userId, type: 'access_token'}`. -/
def generateToken (userId secret : String) (now expiresIn : Nat) :
    Except String SignedToken :=
  if userId = "" then
    .error "Token generation failed: User ID is required for token generation"
  else
    .ok (jwtSign ⟨userId, "access_token"⟩ secret now expiresIn
          "auth-service" "microservices")

/-- `JWTUtils.generateRefreshToken(userId)`: rejects a falsy userId,
otherwise signs `{userId, type: 'refresh_token'}` valid for 7 days. -/
def generateRefreshToken (userId secret : String) (now : Nat) :
    Except String SignedToken :=
  if userId = "" then
    .error "Refresh token generation failed: User ID is required for refresh token generation"
  else
    .ok (jwtSign ⟨userId, "refresh_token"⟩ secret now refreshExpiresIn
          "auth-service" "microservices")

/-- The spec's unified `issue(subjectId, kind, ttl)` in terms of the two
source generators: `kind = refresh_token` routes to
`generateRefreshToken` (fixed 7-day ttl), anything else to
`generateToken` with the requested ttl. -/
def issue (subjectId kind secret : String) (now ttl : Nat) :
    Except String SignedToken :=
  if kind = "refresh_token" then generateRefreshToken subjectId secret now
  else generateToken subjectId secret now ttl

/-- `JWTUtils.verifyToken`: rejects a falsy/non-string token (modelled
as `none`), strips any `Bearer ` prefix (already reflected in
`TokenString`), then runs `jwt.verify`. -/
def verifyToken (t : Option TokenString) (secret : String) (now : Nat) :
    Except String DecodedJwt :=
  match t with
  | none => .error "Token verification failed: Token must be a non-empty string"
  | some tk => jwtVerify tk secret now

/-! ## File-service bearer authentication (`file-service/src/middleware/auth.js`) -/

/-- The `Authorization` header as the middleware sees it: absent (or
falsy), the literal `"Bearer "` with nothing after it, or a token
string, optionally `Bearer `-marked. -/
inductive AuthHeader where
  | missing
  | bearerEmpty
  | value (withBearer : Bool) (t : TokenString)
deriving DecidableEq, Repr

/-- The `req.user` object the middleware installs on success. -/
structure AuthedUser where
  userId : String
  tokenType : String
  iat : Nat
  exp : Nat
deriving DecidableEq, Repr

/-- How `authenticateToken`'s catch-block maps `verifyToken` error
messages to 401 responses. -/
def authErrResponse (msg : String) : ErrResponse :=
  if msg = "Token has expired" then ⟨401, "TOKEN_EXPIRED", "Token has expired"⟩
  else if msg = "Invalid token" then ⟨401, "INVALID_TOKEN", "Invalid token format"⟩
  else if msg = "Token not active yet" then ⟨401, "TOKEN_NOT_ACTIVE", "Token is not active yet"⟩
  else ⟨401, "INVALID_TOKEN", "Invalid or expired token"⟩

/-- `authenticateToken` of the file service: extracts the token from the
header, verifies it, and on success installs
`{userId, tokenType := decoded.type, iat, exp}`. The decoded `type` is
recorded but never checked. -/
def authenticateToken (header : AuthHeader) (secret : String) (now : Nat) :
    Except ErrResponse AuthedUser :=
  match header with
  | .missing => .error ⟨401, "MISSING_AUTH_HEADER", "Authorization header is required"⟩
  | .bearerEmpty => .error ⟨401, "MISSING_TOKEN", "Token is required"⟩
  | .value _ tk =>
    match verifyToken (some tk) secret now with
    | .error msg => .error (authErrResponse msg)
    | .ok d => .ok ⟨d.userId, d.type, d.iat, d.exp⟩

example :
    authenticateToken (.value true (.signed (jwtSign ⟨"u1", "access_token"⟩ "s" 0 60 "auth-service" "microservices"))) "s" 10
      = .ok ⟨"u1", "access_token", 0, 60⟩ := rfl

example :
    authenticateToken (.value true (.signed (jwtSign ⟨"u1", "access_token"⟩ "s" 0 60 "auth-service" "microservices"))) "s" 60
      = .error ⟨401, "TOKEN_EXPIRED", "Token has expired"⟩ := rfl

/-! ## ObjectIds (`mongoose.Types.ObjectId`) -/

/-- Hex digit, as in bson's 24-hex ObjectId check. -/
def isHexChar (c : Char) : Bool :=
  c.isDigit || ('a' ≤ c && c ≤ 'f') || ('A' ≤ c && c ≤ 'F')

/-- `mongoose.Types.ObjectId.isValid` on strings: a 12-character string
or a 24-character hex string. -/
def objectIdIsValid (s : String) : Bool :=
  s.length = 12 || (s.length = 24 && s.toList.all isHexChar)

/-- ASCII lowercasing (JS `toLowerCase`; the inputs of interest are
ASCII). -/
def charLower (c : Char) : Char :=
  if 'A' ≤ c && c ≤ 'Z' then Char.ofNat (c.toNat + 32) else c

/-- ASCII lowercasing of a string. -/
def strLower (s : String) : String := String.mk (s.toList.map charLower)

/-- JS `trim`: strip whitespace from both ends. -/
def strTrim (s : String) : String :=
  String.mk (((s.toList.dropWhile Char.isWhitespace).reverse.dropWhile
    Char.isWhitespace).reverse)

/-- Lowercase hex pair of a byte (characters are taken mod 256: the
model covers one-byte characters, which is all the repository stores). -/
def byteToHex (n : Nat) : List Char :=
  let digits := "0123456789abcdef".toList
  [digits.getD (n / 16 % 16) '0', digits.getD (n % 16) '0']

/-- Casting a valid id string to the canonical (lowercase 24-hex)
ObjectId: a 24-hex string is lowercased, a 12-character string is read
as the 12 raw bytes of the id. Only applied under `objectIdIsValid`. -/
def castId (s : String) : String :=
  if s.length = 24 && s.toList.all isHexChar then strLower s
  else String.mk (s.toList.foldr (fun c acc => byteToHex (c.toNat % 256) ++ acc) [])

example : castId "aaaaaaaaaaaa" = "616161616161616161616161" := by decide
example : castId "616161616161616161616161" = "616161616161616161616161" := by decide

/-! ## File metadata store (`models/File.js`, `repositories/fileRepository.js`) -/

/-- A document of the `File` collection; `id` is the canonical string of
`_id`. -/
structure FileRecord where
  id : String
  filename : String
  originalName : String
  size : Nat
  userId : String
  s3Key : String
  s3Bucket : String
  mimeType : String
  uploadedAt : Nat
  lastAccessedAt : Nat
  downloadCount : Nat
  isActive : Bool
deriving DecidableEq, Repr

/-- `findOneAndUpdate`: update the first record matching `p` with `u`;
returns the updated document (if any) and the new collection. -/
def updateFirst (p : FileRecord → Bool) (u : FileRecord → FileRecord) :
    List FileRecord → Option FileRecord × List FileRecord
  | [] => (none, [])
  | f :: fs =>
    if p f then (some (u f), u f :: fs)
    else
      let r := updateFirst p u fs
      (r.1, f :: r.2)

/-- `findOneAndDelete`: remove the first record matching `p`. -/
def removeFirst (p : FileRecord → Bool) :
    List FileRecord → Option FileRecord × List FileRecord
  | [] => (none, [])
  | f :: fs =>
    if p f then (some f, fs)
    else
      let r := removeFirst p fs
      (r.1, f :: r.2)

/-- `FileRepository.findByIdAndUserId`: guard both ids with `isValid`,
then `findOne({_id, userId, isActive: true})`. -/
def findByIdAndUserId (store : List FileRecord) (fileId userId : String) :
    Option FileRecord :=
  if objectIdIsValid fileId && objectIdIsValid userId then
    store.find? (fun f => f.id = castId fileId && f.userId = castId userId && f.isActive)
  else none

/-- `FileRepository.findByIdIncludingInactive`: guard the id, then
`findById` with no `isActive` filter. -/
def findByIdIncludingInactive (store : List FileRecord) (fileId : String) :
    Option FileRecord :=
  if objectIdIsValid fileId then
    store.find? (fun f => f.id = castId fileId)
  else none

/-- Sortable fields of the schema; a field MongoDB does not find on the
documents compares equal everywhere. -/
def sortField (field : String) (f : FileRecord) : Nat :=
  if field = "uploadedAt" then f.uploadedAt
  else if field = "lastAccessedAt" then f.lastAccessedAt
  else if field = "size" then f.size
  else if field = "downloadCount" then f.downloadCount
  else 0

/-- Insertion step of the sort used to model MongoDB's `sort`. -/
def insertBy (le : FileRecord → FileRecord → Bool) (x : FileRecord) :
    List FileRecord → List FileRecord
  | [] => [x]
  | y :: ys => if le x y then x :: y :: ys else y :: insertBy le x ys

/-- MongoDB `sort({field: order})` (insertion sort; the claims only use
that it is a permutation). -/
def sortRecords (field : String) (asc : Bool) (l : List FileRecord) :
    List FileRecord :=
  l.foldr (insertBy (fun a b =>
    if asc then sortField field a ≤ sortField field b
    else sortField field b ≤ sortField field a)) []

/-- `fileSchema.statics.findByUser` under MongoDB semantics: filter
`{userId, isActive: true}`, sort, then skip and limit (the server
applies sort before skip/limit regardless of chaining order; mongoose
applies `.limit`/`.skip` only for truthy values). -/
def findByUser (store : List FileRecord) (uid : String) (limit skip : Int)
    (sortBy : String) (asc : Bool) : List FileRecord :=
  let matching := store.filter (fun f => f.userId = uid && f.isActive)
  let sorted := sortRecords sortBy asc matching
  let skipped := if skip = 0 then sorted else sorted.drop skip.toNat
  if limit = 0 then skipped else skipped.take limit.toNat

/-- `FileRepository.findByUserId`: invalid user id short-circuits to
`[]`. -/
def findByUserId (store : List FileRecord) (userId : String)
    (limit skip : Int) (sortBy : String) (asc : Bool) : List FileRecord :=
  if objectIdIsValid userId then findByUser store (castId userId) limit skip sortBy asc
  else []

/-- `FileRepository.countByUserId`: `countDocuments({userId, isActive: true})`. -/
def countByUserId (store : List FileRecord) (userId : String) : Nat :=
  if objectIdIsValid userId then
    (store.filter (fun f => f.userId = castId userId && f.isActive)).length
  else 0

/-- `FileRepository.getTotalSizeByUserId`: sum of `size` over the active
files of the user. -/
def getTotalSizeByUserId (store : List FileRecord) (userId : String) : Nat :=
  if objectIdIsValid userId then
    ((store.filter (fun f => f.userId = castId userId && f.isActive)).map
      (fun f => f.size)).sum
  else 0

/-- `FileRepository.markAsDeleted` (soft delete):
`findOneAndUpdate({_id, userId, isActive: true}, {isActive: false,
lastAccessedAt: now})`; `true` iff a document matched. -/
def markAsDeleted (store : List FileRecord) (fileId userId : String)
    (now : Nat) : Bool × List FileRecord :=
  if objectIdIsValid fileId && objectIdIsValid userId then
    let r := updateFirst
      (fun f => f.id = castId fileId && f.userId = castId userId && f.isActive)
      (fun f => { f with isActive := false, lastAccessedAt := now }) store
    (r.1.isSome, r.2)
  else (false, store)

/-- `FileRepository.deleteById` (hard delete):
`findOneAndDelete({_id, userId})` — no `isActive` filter. -/
def deleteById (store : List FileRecord) (fileId userId : String) :
    Bool × List FileRecord :=
  if objectIdIsValid fileId && objectIdIsValid userId then
    let r := removeFirst (fun f => f.id = castId fileId && f.userId = castId userId) store
    (r.1.isSome, r.2)
  else (false, store)

/-- `FileRepository.incrementDownloadCount`:
`findByIdAndUpdate(fileId, {$inc: {downloadCount: 1}, lastAccessedAt: now})`. -/
def incrementDownloadCount (store : List FileRecord) (fileId : String)
    (now : Nat) : Option FileRecord × List FileRecord :=
  if objectIdIsValid fileId then
    updateFirst (fun f => f.id = castId fileId)
      (fun f => { f with downloadCount := f.downloadCount + 1, lastAccessedAt := now }) store
  else (none, store)

/-- `fileSchema`'s pre-save hook: path separators in `filename` are
replaced by `_`. -/
def sanitizeFilename (s : String) : String :=
  String.mk (s.toList.map (fun c => if c = '/' || c = '\\' then '_' else c))

/-- Outcome of `File.save()` inside `FileRepository.create`. -/
inductive CreateErr where
  | validation
  | duplicateKey
deriving DecidableEq, Repr

/-- `FileRepository.create`: schema validation (`userId` castable,
`filename`/`originalName` required and ≤ 255, `1 ≤ size ≤ 52428800`,
`s3Key`/`s3Bucket` required), then the unique index on `s3Key`
(duplicate → error code 11000), then insert with schema defaults
(`downloadCount = 0`, `isActive = true`, timestamps `now`). -/
def createFile (store : List FileRecord)
    (filename originalName : String) (size : Nat)
    (userId s3Key s3Bucket mimeType : String) (newId : String) (now : Nat) :
    Except CreateErr (FileRecord × List FileRecord) :=
  if ¬ objectIdIsValid userId then .error .validation
  else if filename = "" || filename.length > 255 then .error .validation
  else if originalName = "" || originalName.length > 255 then .error .validation
  else if size < 1 || size > 52428800 then .error .validation
  else if s3Key = "" || s3Bucket = "" then .error .validation
  else if store.any (fun f => f.s3Key = s3Key) then .error .duplicateKey
  else
    let doc : FileRecord :=
      { id := newId, filename := sanitizeFilename filename,
        originalName := originalName, size := size, userId := castId userId,
        s3Key := s3Key, s3Bucket := s3Bucket, mimeType := mimeType,
        uploadedAt := now, lastAccessedAt := now, downloadCount := 0,
        isActive := true }
    .ok (doc, store ++ [doc])

/-! ## S3 service (`s3Service.js`); the object store itself is the list
of keys it holds. -/

/-- `S3Service.getFileExtension`: substring from the last dot, `""` if
none. -/
def getFileExtension (filename : String) : String :=
  let cs := filename.toList
  if cs.any (fun c => c = '.') then
    String.mk ('.' :: (cs.reverse.takeWhile (fun c => c ≠ '.')).reverse)
  else ""

example : getFileExtension "a.txt" = ".txt" := by decide
example : getFileExtension "archive.tar.gz" = ".gz" := by decide
example : getFileExtension "noext" = "" := by decide

/-- `S3Service.getMimeType`: static extension table, defaulting to
`application/octet-stream`. -/
def getMimeType (filename : String) : String :=
  let ext := strLower (getFileExtension filename)
  let table : List (String × String) :=
    [(".pdf", "application/pdf"),
     (".doc", "application/msword"),
     (".docx", "application/vnd.openxmlformats-officedocument.wordprocessingml.document"),
     (".xls", "application/vnd.ms-excel"),
     (".xlsx", "application/vnd.openxmlformats-officedocument.spreadsheetml.sheet"),
     (".ppt", "application/vnd.ms-powerpoint"),
     (".pptx", "application/vnd.openxmlformats-officedocument.presentationml.presentation"),
     (".txt", "text/plain"), (".csv", "text/csv"), (".json", "application/json"),
     (".xml", "application/xml"), (".jpg", "image/jpeg"), (".jpeg", "image/jpeg"),
     (".png", "image/png"), (".gif", "image/gif"), (".bmp", "image/bmp"),
     (".svg", "image/svg+xml"), (".mp4", "video/mp4"), (".avi", "video/x-msvideo"),
     (".mov", "video/quicktime"), (".mp3", "audio/mpeg"), (".wav", "audio/wav"),
     (".zip", "application/zip"), (".rar", "application/x-rar-compressed"),
     (".tar", "application/x-tar"), (".gz", "application/gzip")]
  match table.find? (fun e => e.1 = ext) with
  | some e => e.2
  | none => "application/octet-stream"

/-- The S3 key `uploadToS3` generates: `files/{userId}/{uuid}{ext}`
(the uuid is a parameter of the model; `Math.random` is outside it). -/
def makeS3Key (userId uuid filename : String) : String :=
  "files/" ++ userId ++ "/" ++ uuid ++ getFileExtension filename

/-- A presigned GET URL, modelled as a deterministic function of the key
and the disposition options (the AWS signature itself is external). -/
def presignUrl (s3Key : String) (forceDownload : Bool) (filename : String) :
    String :=
  if forceDownload then "https://s3.presigned/" ++ s3Key ++ "?attachment=" ++ filename
  else "https://s3.presigned/" ++ s3Key

/-- `config.upload.maxFileSize`: default `52428800` (50 MiB). -/
def maxFileSize : Nat := 52428800

/-! ## JS query-parameter parsing -/

/-- `true` iff a JS string value is falsy (`undefined` or `""`). -/
def jsFalsyStr : Option String → Bool
  | none => true
  | some s => s = ""

/-- Leading decimal digits of a character list, if any. -/
def digitsValue (l : List Char) : Option Nat :=
  let ds := l.takeWhile Char.isDigit
  if ds.isEmpty then none
  else some (ds.foldl (fun a c => a * 10 + (c.toNat - 48)) 0)

/-- JS `parseInt(x)` for a base-10 query parameter: skip leading
whitespace, optional sign, longest digit run; `none` models `NaN`
(absent parameter included, since `parseInt(undefined)` is `NaN`). -/
def jsParseInt : Option String → Option Int
  | none => none
  | some s =>
    match s.toList.dropWhile Char.isWhitespace with
    | '-' :: rest => (digitsValue rest).map (fun n => -(n : Int))
    | '+' :: rest => (digitsValue rest).map (fun n => (n : Int))
    | l => (digitsValue l).map (fun n => (n : Int))

/-- `parseInt(q) || d`: the default kicks in on `NaN` and on `0`. -/
def jsOrInt (v : Option Int) (d : Int) : Int :=
  match v with
  | none => d
  | some n => if n = 0 then d else n

example : jsOrInt (jsParseInt none) 50 = 50 := by decide
example : jsOrInt (jsParseInt (some "abc")) 50 = 50 := by decide
example : jsOrInt (jsParseInt (some "0")) 50 = 50 := by decide
example : jsOrInt (jsParseInt (some "100")) 50 = 100 := by decide
example : jsOrInt (jsParseInt (some "12.9")) 50 = 12 := by decide

/-! ## File controller (`fileController.js`) -/

/-- Result of `POST /upload`. -/
inductive UploadOutcome where
  | err (e : ErrResponse)
  | ok (fileId filename : String) (size : Nat) (s3Key mimeType : String)
      (uploadedAt : Nat)
deriving DecidableEq, Repr

/-- `FileController.uploadFile`. Inputs: the metadata store and the set
of S3 keys, the authenticated user id, the `filename` query parameter,
the raw body (`none` = not a Buffer), and the random uuid / new
document id the backends would draw. Returns the response together with
the new store and S3 contents. -/
def uploadFile (store : List FileRecord) (s3 : List String) (userId : String)
    (filenameP : Option String) (body : Option (List UInt8))
    (uuid newId : String) (now : Nat) :
    UploadOutcome × List FileRecord × List String :=
  if jsFalsyStr filenameP then
    (.err ⟨400, "MISSING_FILENAME", "Filename query parameter is required"⟩, store, s3)
  else
    let filename := filenameP.getD ""
    if filename.length > 255 then
      (.err ⟨400, "FILENAME_TOO_LONG", "Filename must be less than 255 characters"⟩, store, s3)
    else
      match body with
      | none =>
        (.err ⟨400, "MISSING_FILE_DATA", "File data is required in request body"⟩, store, s3)
      | some bytes =>
        if bytes.length = 0 then
          (.err ⟨400, "MISSING_FILE_DATA", "File data is required in request body"⟩, store, s3)
        else if bytes.length > maxFileSize then
          (.err ⟨413, "FILE_TOO_LARGE",
            "File size exceeds maximum limit of 52428800 bytes (50MB)"⟩, store, s3)
        else if bytes.length = 0 then
          -- dead branch of the source, kept verbatim
          (.err ⟨400, "EMPTY_FILE", "File cannot be empty"⟩, store, s3)
        else
          let contentType := getMimeType filename
          let key := makeS3Key userId uuid filename
          let s3' := s3 ++ [key]
          match createFile store filename filename bytes.length userId key
            "file-service-bucket" contentType newId now with
          | .error .duplicateKey =>
            (.err ⟨409, "DUPLICATE_FILE", "File already exists"⟩, store, s3')
          | .error .validation =>
            (.err ⟨400, "VALIDATION_ERROR", "File metadata validation failed"⟩, store, s3')
          | .ok (doc, store') =>
            (.ok doc.id doc.filename doc.size doc.s3Key doc.mimeType doc.uploadedAt,
             store', s3')

/-- Result of `GET /file/:id`. -/
inductive DlOutcome where
  | err (e : ErrResponse)
  | ok (downloadUrl filename : String) (size : Nat) (mimeType : String)
      (expiresIn expiresAt : Nat)
deriving DecidableEq, Repr

/-- `FileController.getFileDownloadUrl`: ownership-scoped lookup →
S3 existence check → presign (ttl 900 s) → `incrementDownloadCount`. -/
def getFileDownloadUrl (store : List FileRecord) (s3 : List String)
    (userId fileId : String) (download : Bool) (now : Nat) :
    DlOutcome × List FileRecord :=
  if fileId = "" then
    (.err ⟨400, "MISSING_FILE_ID", "File ID is required"⟩, store)
  else
    match findByIdAndUserId store fileId userId with
    | none =>
      (.err ⟨404, "FILE_NOT_FOUND", "File not found or access denied"⟩, store)
    | some f =>
      if ¬ s3.contains f.s3Key then
        (.err ⟨404, "FILE_NOT_IN_STORAGE", "File not found in storage"⟩, store)
      else
        let store' := (incrementDownloadCount store fileId now).2
        (.ok (presignUrl f.s3Key download f.filename) f.filename f.size
          f.mimeType 900 (now + 900), store')

/-- Result of `DELETE /file/:id`. -/
inductive DelOutcome where
  | err (e : ErrResponse)
  | ok (fileId : String)
deriving DecidableEq, Repr

/-- `FileController.deleteFile`: ownership-scoped lookup → best-effort
S3 delete → soft delete (`markAsDeleted`). -/
def deleteFile (store : List FileRecord) (s3 : List String)
    (userId fileId : String) (now : Nat) :
    DelOutcome × List FileRecord × List String :=
  if fileId = "" then
    (.err ⟨400, "MISSING_FILE_ID", "File ID is required"⟩, store, s3)
  else
    match findByIdAndUserId store fileId userId with
    | none =>
      (.err ⟨404, "FILE_NOT_FOUND", "File not found or access denied"⟩, store, s3)
    | some f =>
      let s3' := s3.erase f.s3Key
      let r := markAsDeleted store fileId userId now
      if r.1 then (.ok fileId, r.2, s3')
      else (.err ⟨404, "FILE_NOT_FOUND", "File not found or already deleted"⟩, r.2, s3')

/-- The success body of `GET /files`. -/
structure ListOk where
  files : List FileRecord
  total : Nat
  limit : Int
  skip : Int
  hasMore : Bool
  totalFiles : Nat
  totalSize : Nat
deriving DecidableEq, Repr

/-- Result of `GET /files`. -/
inductive ListOutcome where
  | err (e : ErrResponse)
  | ok (r : ListOk)
deriving DecidableEq, Repr

/-- `FileController.getUserFiles`: parse `limit`/`skip`/`sortBy`/
`sortOrder` with defaults, reject `limit > 100`, then query the
repository and assemble pagination
(`hasMore = skip + files.length < total`). -/
def getUserFiles (store : List FileRecord) (userId : String)
    (limitP skipP sortByP sortOrderP : Option String) : ListOutcome :=
  let limit := jsOrInt (jsParseInt limitP) 50
  let skip := jsOrInt (jsParseInt skipP) 0
  let sortBy := if jsFalsyStr sortByP then "uploadedAt" else sortByP.getD ""
  let asc := sortOrderP = some "asc"
  if limit > 100 then
    .err ⟨400, "LIMIT_TOO_HIGH", "Limit cannot exceed 100"⟩
  else
    let files := findByUserId store userId limit skip sortBy asc
    let total := countByUserId store userId
    .ok { files := files, total := total, limit := limit, skip := skip,
          hasMore := decide ((skip + files.length : Int) < (total : Int)),
          totalFiles := total, totalSize := getTotalSizeByUserId store userId }

/-- Projection: number of files in a list response. -/
def listFilesCount : ListOutcome → Nat
  | .err _ => 0
  | .ok r => r.files.length

/-- Projection: the `hasMore` flag of a list response. -/
def listHasMore : ListOutcome → Option Bool
  | .err _ => none
  | .ok r => some r.hasMore

/-- Projection: the `limit` echoed in the pagination object. -/
def listLimit : ListOutcome → Option Int
  | .err _ => none
  | .ok r => some r.limit

/-- Projection: the `skip` echoed in the pagination object. -/
def listSkip : ListOutcome → Option Int
  | .err _ => none
  | .ok r => some r.skip

/-! ## Auth service (`User.js`, `userRepository.js`, `passwordUtils.js`,
`authController.js`) -/

/-- A document of the `User` collection. -/
structure UserRecord where
  id : String
  email : String
  passwordHash : String
deriving DecidableEq, Repr

/-- bcrypt, modelled as an abstract injective one-way pair. -/
def hashPassword (p : String) : String := "bcrypt$" ++ p

/-- `bcrypt.compare`: succeeds exactly on the hash of the password. -/
def comparePassword (p h : String) : Bool := h = hashPassword p

/-- `UserRepository.findByEmail`: `findOne({email: email.toLowerCase()})`. -/
def findByEmail (users : List UserRecord) (email : String) :
    Option UserRecord :=
  users.find? (fun u => u.email = strLower email)

/-- Interior dot of the domain part: the regex's `[^\s@]+\.[^\s@]+`
demands a `.` that is neither the first nor the last character. -/
def hasInteriorDot (l : List Char) : Bool :=
  ((l.drop 1).dropLast).any (fun c => c = '.')

/-- Split a character list at every `@`. -/
def splitAtSign : List Char → List (List Char)
  | [] => [[]]
  | c :: rest =>
    let r := splitAtSign rest
    if c = '@' then [] :: r
    else
      match r with
      | [] => [[c]]
      | h :: t => (c :: h) :: t

/-- The controller's email regex `^[^\s@]+@[^\s@]+\.[^\s@]+$`: exactly
one `@`, non-empty whitespace-free local part, and a whitespace-free
domain with an interior dot. -/
def emailShapeValid (e : String) : Bool :=
  match splitAtSign e.toList with
  | [l, r] =>
    (!l.isEmpty) && l.all (fun c => !c.isWhitespace)
      && r.all (fun c => !c.isWhitespace)
      && hasInteriorDot r
  | _ => false

example : emailShapeValid "a@b.com" = true := by decide
example : emailShapeValid "A@B.COM" = true := by decide
example : emailShapeValid "a@bcom" = false := by decide
example : emailShapeValid "a b@c.de" = false := by decide
example : emailShapeValid "a@b@c.de" = false := by decide

/-- `passwordUtils.validatePasswordStrength`: the itemized failures
(length 6–128, at least one `[a-zA-Z]`, at least one digit). -/
def passwordStrengthErrors (p : String) : List String :=
  (if p.length < 6 then ["Password must be at least 6 characters long"] else [])
  ++ (if p.length > 128 then ["Password must be less than 128 characters long"] else [])
  ++ (if !(p.toList.any (fun c => c.isAlpha)) then
        ["Password must contain at least one letter"] else [])
  ++ (if !(p.toList.any Char.isDigit) then
        ["Password must contain at least one number"] else [])

example : passwordStrengthErrors "abcdef1" = [] := by decide
example :
    passwordStrengthErrors "abc"
      = ["Password must be at least 6 characters long",
         "Password must contain at least one number"] := by decide

/-- Result of `POST /register`. -/
inductive RegisterOutcome where
  | err (e : ErrResponse)
  | ok (userId email : String)
deriving DecidableEq, Repr

/-- `AuthController.register`: missing fields → email regex → password
strength → case-insensitive uniqueness → persist with the email
lowercased and trimmed. -/
def register (users : List UserRecord) (emailP passwordP : Option String)
    (newId : String) : RegisterOutcome × List UserRecord :=
  if jsFalsyStr emailP || jsFalsyStr passwordP then
    (.err ⟨400, "MISSING_FIELDS", "Email and password are required"⟩, users)
  else
    let email := emailP.getD ""
    let password := passwordP.getD ""
    if ¬ emailShapeValid email then
      (.err ⟨400, "INVALID_EMAIL", "Please provide a valid email address"⟩, users)
    else if ¬ (passwordStrengthErrors password).isEmpty then
      (.err ⟨400, "WEAK_PASSWORD", "Password does not meet requirements"⟩, users)
    else
      match findByEmail users email with
      | some _ =>
        (.err ⟨409, "EMAIL_EXISTS", "User with this email already exists"⟩, users)
      | none =>
        let stored := strTrim (strLower email)
        (.ok newId stored,
         users ++ [{ id := newId, email := stored, passwordHash := hashPassword password }])

/-- Result of `POST /login`. -/
inductive LoginOutcome where
  | err (e : ErrResponse)
  | ok (token : SignedToken) (userId email : String)
deriving DecidableEq, Repr

/-- `AuthController.login`: missing fields, then `findByEmail`, then
`bcrypt.compare`; unknown email and wrong password yield the identical
`INVALID_CREDENTIALS`; success issues an access token for the user id. -/
def login (users : List UserRecord) (emailP passwordP : Option String)
    (secret : String) (now : Nat) : LoginOutcome :=
  if jsFalsyStr emailP || jsFalsyStr passwordP then
    .err ⟨400, "MISSING_FIELDS", "Email and password are required"⟩
  else
    match findByEmail users (emailP.getD "") with
    | none => .err ⟨401, "INVALID_CREDENTIALS", "Invalid email or password"⟩
    | some u =>
      if ¬ comparePassword (passwordP.getD "") u.passwordHash then
        .err ⟨401, "INVALID_CREDENTIALS", "Invalid email or password"⟩
      else
        match generateToken u.id secret now accessExpiresIn with
        | .ok tok => .ok tok u.id u.email
        | .error _ => .err ⟨500, "LOGIN_ERROR", "Internal server error during login"⟩

/-! ## Claim C1 — token-kind handling at the file-service gate -/

/-- A concrete refresh token for user `507f1f77bcf86cd799439011`, issued
at time 0 with the shared secret. -/
def demoRefreshTok : SignedToken :=
  jwtSign ⟨"507f1f77bcf86cd799439011", "refresh_token"⟩ "shared-secret" 0
    refreshExpiresIn "auth-service" "microservices"

/-- C1 counterexample: a syntactically valid, unexpired refresh token
(`type = refresh_token`) presented to the file-service bearer gate is
**authenticated** (the middleware returns the decoded user with
`tokenType = refresh_token`), not rejected with a wrong-token-kind
error. -/
theorem authenticateToken_accepts_refresh_cex :
    generateRefreshToken "507f1f77bcf86cd799439011" "shared-secret" 0
        = .ok demoRefreshTok
    ∧ demoRefreshTok.payload.type = "refresh_token"
    ∧ (1 : Nat) < demoRefreshTok.exp
    ∧ authenticateToken (.value true (.signed demoRefreshTok)) "shared-secret" 1
        = .ok ⟨"507f1f77bcf86cd799439011", "refresh_token", 0, refreshExpiresIn⟩ :=
  ⟨rfl, rfl, by decide, rfl⟩

/-- C1 (amended): the file-service bearer authentication step that
guards upload, download-URL, list and delete accepts every syntactically
valid, unexpired refresh token signed with the shared secret: it
authenticates the request as the token's subject and merely records
`tokenType = refresh_token` on `req.user`. No wrong-token-kind rejection
exists in the file service. -/
theorem authenticateToken_accepts_valid_refresh
    (subjectId secret : String) (now t : Nat) (tok : SignedToken)
    (hgen : generateRefreshToken subjectId secret now = .ok tok)
    (ht : t < tok.exp) :
    authenticateToken (.value true (.signed tok)) secret t
      = .ok ⟨subjectId, "refresh_token", now, now + refreshExpiresIn⟩ := by
  unfold generateRefreshToken at hgen
  by_cases h : subjectId = ""
  · simp [h] at hgen
  · simp only [h, if_false, Except.ok.injEq] at hgen
    subst hgen
    simp only [jwtSign] at ht ⊢
    simp [authenticateToken, verifyToken, jwtVerify, Nat.not_le.mpr ht]

/-- Witness for `authenticateToken_accepts_valid_refresh` at a concrete
token. -/
theorem authenticateToken_accepts_valid_refresh_witness :
    generateRefreshToken "507f1f77bcf86cd799439011" "shared-secret" 0
        = .ok demoRefreshTok
    ∧ (1 : Nat) < demoRefreshTok.exp
    ∧ authenticateToken (.value true (.signed demoRefreshTok)) "shared-secret" 1
        = .ok ⟨"507f1f77bcf86cd799439011", "refresh_token", 0, 0 + refreshExpiresIn⟩ :=
  ⟨rfl, by decide,
    authenticateToken_accepts_valid_refresh "507f1f77bcf86cd799439011"
      "shared-secret" 0 1 demoRefreshTok rfl (by decide)⟩

/-! ## Claim C4 — token round-trip -/

/-- C4: for every non-empty `subjectId` and every kind, a token produced
by `issue(subjectId, kind, ttl)` verifies at any time strictly before
its ttl elapses (the requested ttl for access tokens, the fixed 7-day
ttl `generateRefreshToken` uses for refresh tokens), and the decoded
payload carries exactly the issued subject and kind. -/
theorem token_roundtrip
    (subjectId kind secret : String) (now ttl t : Nat) (tok : SignedToken)
    (hkind : kind = "access_token" ∨ kind = "refresh_token")
    (hiss : issue subjectId kind secret now ttl = .ok tok)
    (ht : t < now + (if kind = "refresh_token" then refreshExpiresIn else ttl)) :
    verifyToken (some (.signed tok)) secret t
      = .ok ⟨subjectId, kind, now,
          now + (if kind = "refresh_token" then refreshExpiresIn else ttl)⟩ := by
  by_cases hsub : subjectId = "" <;>
  rcases hkind with h | h <;> subst h <;>
  simp_all only [issue, generateToken, generateRefreshToken, if_true, if_false,
    reduceCtorEq, String.reduceEq, ite_false, ite_true, Except.ok.injEq] <;>
  · subst hiss
    simp only [jwtSign] at ht ⊢
    simp [verifyToken, jwtVerify, Nat.not_le.mpr ht]

/-- Witness for `token_roundtrip`: an access token with ttl 100 verified
at time 50, and a refresh token verified at time 7. -/
theorem token_roundtrip_witness :
    issue "u1" "access_token" "s" 0 100
        = .ok (jwtSign ⟨"u1", "access_token"⟩ "s" 0 100 "auth-service" "microservices")
    ∧ verifyToken
        (some (.signed (jwtSign ⟨"u1", "access_token"⟩ "s" 0 100 "auth-service" "microservices")))
        "s" 50
        = .ok ⟨"u1", "access_token", 0,
            0 + (if "access_token" = "refresh_token" then refreshExpiresIn else 100)⟩ :=
  ⟨rfl,
    token_roundtrip "u1" "access_token" "s" 0 100 50 _ (Or.inl rfl) rfl (by decide)⟩

/-! ## Lookup lemmas -/

/-- The ownership-scoped lookup misses whenever no stored record has the
looked-up id, the requester's owner id and the active flag at once. -/
theorem findByIdAndUserId_eq_none
    (store : List FileRecord) (fid uid : String)
    (h : ∀ f ∈ store, ¬ (f.id = castId fid ∧ f.userId = castId uid ∧ f.isActive = true)) :
    findByIdAndUserId store fid uid = none := by
  unfold findByIdAndUserId
  split
  · apply List.find?_eq_none.mpr
    intro f hf
    simp only [Bool.and_eq_true, decide_eq_true_eq]
    rintro ⟨⟨h1, h2⟩, h3⟩
    exact h f hf ⟨h1, h2, h3⟩
  · rfl

/-- An ownership-scoped miss makes `getFileDownloadUrl` answer the
literal 404 `FILE_NOT_FOUND` envelope. -/
theorem getFileDownloadUrl_notFound
    (store : List FileRecord) (s3 : List String) (uid fid : String)
    (download : Bool) (now : Nat) (hfid : fid ≠ "")
    (hnone : findByIdAndUserId store fid uid = none) :
    (getFileDownloadUrl store s3 uid fid download now).1
      = .err ⟨404, "FILE_NOT_FOUND", "File not found or access denied"⟩ := by
  simp [getFileDownloadUrl, hfid, hnone]

/-- An ownership-scoped miss makes `deleteFile` answer the literal 404
`FILE_NOT_FOUND` envelope. -/
theorem deleteFile_notFound
    (store : List FileRecord) (s3 : List String) (uid fid : String)
    (now : Nat) (hfid : fid ≠ "")
    (hnone : findByIdAndUserId store fid uid = none) :
    (deleteFile store s3 uid fid now).1
      = .err ⟨404, "FILE_NOT_FOUND", "File not found or access denied"⟩ := by
  simp [deleteFile, hfid, hnone]

/-! ## Claim C2 — ownership hiding -/

/-- C2: with the same requester `uidB`, `getFileDownloadUrl` and
`deleteFile` on a file id wholly owned by a different user `uidA`
produce responses identical — same status, code and message — to the
responses for an id that matches no record at all: the single 404
`FILE_NOT_FOUND` envelope. -/
theorem ownership_hiding
    (store : List FileRecord) (s3 : List String)
    (uidA uidB fidOwned fidAbsent : String) (download : Bool) (now : Nat)
    (hfidO : fidOwned ≠ "") (hfidA : fidAbsent ≠ "")
    (howner : ∀ f ∈ store, f.id = castId fidOwned → f.userId = castId uidA)
    (_howned : ∃ f ∈ store, f.id = castId fidOwned ∧ f.userId = castId uidA ∧ f.isActive = true)
    (hdiff : castId uidA ≠ castId uidB)
    (habsent : ∀ f ∈ store, f.id ≠ castId fidAbsent) :
    ((getFileDownloadUrl store s3 uidB fidOwned download now).1
        = (getFileDownloadUrl store s3 uidB fidAbsent download now).1
      ∧ (getFileDownloadUrl store s3 uidB fidOwned download now).1
        = .err ⟨404, "FILE_NOT_FOUND", "File not found or access denied"⟩)
    ∧ ((deleteFile store s3 uidB fidOwned now).1
        = (deleteFile store s3 uidB fidAbsent now).1
      ∧ (deleteFile store s3 uidB fidOwned now).1
        = .err ⟨404, "FILE_NOT_FOUND", "File not found or access denied"⟩) := by
  have hnoneO : findByIdAndUserId store fidOwned uidB = none := by
    apply findByIdAndUserId_eq_none
    intro f hf ⟨h1, h2, _⟩
    exact hdiff ((howner f hf h1).symm.trans h2)
  have hnoneA : findByIdAndUserId store fidAbsent uidB = none := by
    apply findByIdAndUserId_eq_none
    intro f hf ⟨h1, _, _⟩
    exact habsent f hf h1
  have g1 := getFileDownloadUrl_notFound store s3 uidB fidOwned download now hfidO hnoneO
  have g2 := getFileDownloadUrl_notFound store s3 uidB fidAbsent download now hfidA hnoneA
  have d1 := deleteFile_notFound store s3 uidB fidOwned now hfidO hnoneO
  have d2 := deleteFile_notFound store s3 uidB fidAbsent now hfidA hnoneA
  exact ⟨⟨g1.trans g2.symm, g1⟩, ⟨d1.trans d2.symm, d1⟩⟩

/-- A's file for the C2/C9 fixtures (id is the ObjectId whose 12 bytes
are `aaaaaaaaaaaa`). -/
def demoAliasFile : FileRecord :=
  { id := "616161616161616161616161", filename := "notes.txt",
    originalName := "notes.txt", size := 5,
    userId := "bbbbbbbbbbbbbbbbbbbbbbbb",
    s3Key := "files/bbbbbbbbbbbbbbbbbbbbbbbb/u1.txt",
    s3Bucket := "file-service-bucket", mimeType := "text/plain",
    uploadedAt := 10, lastAccessedAt := 10, downloadCount := 0,
    isActive := true }

/-- Witness for `ownership_hiding`: requester `cc…c` probing the file of
owner `bb…b` and a free id. -/
theorem ownership_hiding_witness :
    ((getFileDownloadUrl [demoAliasFile] [demoAliasFile.s3Key]
        "cccccccccccccccccccccccc" "616161616161616161616161" false 20).1
      = (getFileDownloadUrl [demoAliasFile] [demoAliasFile.s3Key]
        "cccccccccccccccccccccccc" "dddddddddddddddddddddddd" false 20).1)
    ∧ ((getFileDownloadUrl [demoAliasFile] [demoAliasFile.s3Key]
        "cccccccccccccccccccccccc" "616161616161616161616161" false 20).1
      = .err ⟨404, "FILE_NOT_FOUND", "File not found or access denied"⟩) :=
  ⟨((ownership_hiding [demoAliasFile] [demoAliasFile.s3Key]
      "bbbbbbbbbbbbbbbbbbbbbbbb" "cccccccccccccccccccccccc"
      "616161616161616161616161" "dddddddddddddddddddddddd" false 20
      (by decide) (by decide) (by decide)
      ⟨demoAliasFile, by decide, by decide⟩ (by decide) (by decide)).1).1,
   ((ownership_hiding [demoAliasFile] [demoAliasFile.s3Key]
      "bbbbbbbbbbbbbbbbbbbbbbbb" "cccccccccccccccccccccccc"
      "616161616161616161616161" "dddddddddddddddddddddddd" false 20
      (by decide) (by decide) (by decide)
      ⟨demoAliasFile, by decide, by decide⟩ (by decide) (by decide)).1).2⟩

/-! ## Claim C9 — malformed file ids -/

/-- C9 counterexample: `"aaaaaaaaaaaa"` is not a 24-hex-character id,
yet `ObjectId.isValid` accepts it (any 12-character string is a valid
ObjectId), the ownership-scoped lookup does query the backend, and on a
store holding the aliased document the response is a 200 — not the
`FILE_NOT_FOUND` 404 the claim promises for every non-24-hex id. -/
theorem malformed_id_queries_backend_cex :
    ("aaaaaaaaaaaa".length = 24 && "aaaaaaaaaaaa".toList.all isHexChar) = false
    ∧ objectIdIsValid "aaaaaaaaaaaa" = true
    ∧ findByIdAndUserId [demoAliasFile] "aaaaaaaaaaaa" "bbbbbbbbbbbbbbbbbbbbbbbb"
        = some demoAliasFile
    ∧ (getFileDownloadUrl [demoAliasFile] [demoAliasFile.s3Key]
        "bbbbbbbbbbbbbbbbbbbbbbbb" "aaaaaaaaaaaa" false 20).1
        ≠ .err ⟨404, "FILE_NOT_FOUND", "File not found or access denied"⟩ := by
  refine ⟨by decide, by decide, by decide, ?_⟩
  decide

/-- C9 (amended): a file-id string that is neither a 24-hex-character id
nor a 12-character string fails `ObjectId.isValid`, so the
ownership-scoped lookup returns `none` for **every** store state — no
backend query — and `getDownloadUrl`/`deleteFile` return exactly the 404
`FILE_NOT_FOUND` envelope of a well-formed but nonexistent id (never a
500). A 12-character id passes the validity check and is cast to the
ObjectId of its bytes, behaving like the corresponding 24-hex id. -/
theorem malformed_id_not_found
    (store : List FileRecord) (s3 : List String)
    (uid fid fidAbsent : String) (download : Bool) (now : Nat)
    (hinv : objectIdIsValid fid = false)
    (hfid : fid ≠ "") (hfidA : fidAbsent ≠ "")
    (habsent : ∀ f ∈ store, f.id ≠ castId fidAbsent) :
    findByIdAndUserId store fid uid = none
    ∧ (getFileDownloadUrl store s3 uid fid download now).1
        = .err ⟨404, "FILE_NOT_FOUND", "File not found or access denied"⟩
    ∧ (getFileDownloadUrl store s3 uid fid download now).1
        = (getFileDownloadUrl store s3 uid fidAbsent download now).1
    ∧ (deleteFile store s3 uid fid now).1
        = .err ⟨404, "FILE_NOT_FOUND", "File not found or access denied"⟩
    ∧ (deleteFile store s3 uid fid now).1
        = (deleteFile store s3 uid fidAbsent now).1 := by
  have hnone : findByIdAndUserId store fid uid = none := by
    unfold findByIdAndUserId
    simp [hinv]
  have hnoneA : findByIdAndUserId store fidAbsent uid = none := by
    apply findByIdAndUserId_eq_none
    intro f hf ⟨h1, _, _⟩
    exact habsent f hf h1
  have g1 := getFileDownloadUrl_notFound store s3 uid fid download now hfid hnone
  have g2 := getFileDownloadUrl_notFound store s3 uid fidAbsent download now hfidA hnoneA
  have d1 := deleteFile_notFound store s3 uid fid now hfid hnone
  have d2 := deleteFile_notFound store s3 uid fidAbsent now hfidA hnoneA
  exact ⟨hnone, g1, g1.trans g2.symm, d1, d1.trans d2.symm⟩

/-- Witness for `malformed_id_not_found` at the invalid id `"zz"`. -/
theorem malformed_id_not_found_witness :
    findByIdAndUserId [demoAliasFile] "zz" "bbbbbbbbbbbbbbbbbbbbbbbb" = none
    ∧ (getFileDownloadUrl [demoAliasFile] [demoAliasFile.s3Key]
        "bbbbbbbbbbbbbbbbbbbbbbbb" "zz" false 20).1
        = .err ⟨404, "FILE_NOT_FOUND", "File not found or access denied"⟩ :=
  ⟨(malformed_id_not_found [demoAliasFile] [demoAliasFile.s3Key]
      "bbbbbbbbbbbbbbbbbbbbbbbb" "zz" "dddddddddddddddddddddddd" false 20
      (by decide) (by decide) (by decide) (by decide)).1,
   (malformed_id_not_found [demoAliasFile] [demoAliasFile.s3Key]
      "bbbbbbbbbbbbbbbbbbbbbbbb" "zz" "dddddddddddddddddddddddd" false 20
      (by decide) (by decide) (by decide) (by decide)).2.1⟩

/-! ## Claim C3 — zero-length upload body -/

/-- C3 (code bug): uploading a zero-length buffer under a valid filename
returns HTTP 400 with code `MISSING_FILE_DATA`, because the
missing-body guard tests `fileBuffer.length === 0` before the dedicated
`EMPTY_FILE` branch can run (that branch is dead code; the repository's
own test `fileController.test.js` expects `EMPTY_FILE` /
`File cannot be empty` here). No object-store or metadata write
happens. -/
theorem empty_upload_missing_file_data :
    uploadFile [] [] "bbbbbbbbbbbbbbbbbbbbbbbb" (some "test.txt") (some [])
        "uuid-1" "cccccccccccccccccccccccc" 7
      = (.err ⟨400, "MISSING_FILE_DATA", "File data is required in request body"⟩,
         [], []) := by
  decide

/-! ## Claim C5 — maximum-size boundary -/

/-- C5: with a valid filename and a non-empty body, a body of exactly
`maxFileSize` bytes passes the size check and the upload proceeds —
the object is written to the store and the metadata record is created —
while a body of `maxFileSize + 1` bytes or more fails with HTTP 413
`FILE_TOO_LARGE` before any object-store or metadata write. -/
def uploadDoc (fn : String) (size : Nat) (uid key mt nid : String)
    (now : Nat) : FileRecord :=
  { id := nid, filename := sanitizeFilename fn, originalName := fn,
    size := size, userId := castId uid, s3Key := key,
    s3Bucket := "file-service-bucket", mimeType := mt, uploadedAt := now,
    lastAccessedAt := now, downloadCount := 0, isActive := true }

theorem upload_size_boundary
    (store : List FileRecord) (s3 : List String) (uid fn : String)
    (bytes : List UInt8) (uuid nid : String) (now : Nat)
    (hfn : fn ≠ "") (hlen : fn.length ≤ 255) :
    (bytes.length = maxFileSize →
      objectIdIsValid uid = true →
      (∀ f ∈ store, f.s3Key ≠ makeS3Key uid uuid fn) →
      uploadFile store s3 uid (some fn) (some bytes) uuid nid now
        = (.ok nid (sanitizeFilename fn) maxFileSize (makeS3Key uid uuid fn)
             (getMimeType fn) now,
           store ++ [uploadDoc fn maxFileSize uid (makeS3Key uid uuid fn)
             (getMimeType fn) nid now],
           s3 ++ [makeS3Key uid uuid fn]))
    ∧ (maxFileSize < bytes.length →
      uploadFile store s3 uid (some fn) (some bytes) uuid nid now
        = (.err ⟨413, "FILE_TOO_LARGE",
             "File size exceeds maximum limit of 52428800 bytes (50MB)"⟩,
           store, s3)) := by
  have hfn' : ¬ (jsFalsyStr (some fn) = true) := by simp [jsFalsyStr, hfn]
  have hlen' : ¬ (fn.length > 255) := by omega
  constructor
  · intro hsz huid hfresh
    have hne : bytes.length ≠ 0 := by
      rw [hsz]; decide
    have hkey : makeS3Key uid uuid fn ≠ "" := by
      intro h
      have h2 := congrArg String.length h
      simp only [makeS3Key, String.length_append] at h2
      rw [show ("files/").length = 6 from rfl, show ("/").length = 1 from rfl,
        show ("").length = 0 from rfl] at h2
      omega
    have hc : createFile store fn fn bytes.length uid (makeS3Key uid uuid fn)
        "file-service-bucket" (getMimeType fn) nid now
        = .ok (uploadDoc fn bytes.length uid (makeS3Key uid uuid fn)
                 (getMimeType fn) nid now,
               store ++ [uploadDoc fn bytes.length uid (makeS3Key uid uuid fn)
                 (getMimeType fn) nid now]) := by
      unfold createFile
      rw [if_neg (not_not_intro huid)]
      rw [if_neg (by
        simp only [Bool.or_eq_true, decide_eq_true_eq, not_or]
        exact ⟨hfn, hlen'⟩)]
      rw [if_neg (by
        simp only [Bool.or_eq_true, decide_eq_true_eq, not_or]
        exact ⟨hfn, hlen'⟩)]
      rw [if_neg (by
        simp only [Bool.or_eq_true, decide_eq_true_eq, not_or]
        rw [hsz]
        exact ⟨by decide, by decide⟩)]
      rw [if_neg (by
        simp only [Bool.or_eq_true, decide_eq_true_eq, not_or]
        exact ⟨hkey, by decide⟩)]
      rw [if_neg (by
        simp only [List.any_eq_true, decide_eq_true_eq, not_exists]
        intro x
        rintro ⟨hx, hkeq⟩
        exact hfresh x hx hkeq)]
      rfl
    simp only [uploadFile, Option.getD_some]
    rw [if_neg hfn', if_neg hlen', if_neg hne,
      if_neg (by omega : ¬ bytes.length > maxFileSize), if_neg hne, hc]
    simp [hsz, uploadDoc]
  · intro hbig
    have hne : bytes.length ≠ 0 := by omega
    simp only [uploadFile, Option.getD_some]
    rw [if_neg hfn', if_neg hlen', if_neg hne,
      if_pos (by omega : bytes.length > maxFileSize)]

/-- Witness for `upload_size_boundary`: a 52 428 800-byte body succeeds,
a 52 428 801-byte body is rejected with 413. -/
theorem upload_size_boundary_witness :
    uploadFile [] [] "bbbbbbbbbbbbbbbbbbbbbbbb" (some "a.txt")
        (some (List.replicate maxFileSize (0 : UInt8))) "uuid-1"
        "cccccccccccccccccccccccc" 3
      = (.ok "cccccccccccccccccccccccc" (sanitizeFilename "a.txt") maxFileSize
           (makeS3Key "bbbbbbbbbbbbbbbbbbbbbbbb" "uuid-1" "a.txt")
           (getMimeType "a.txt") 3,
         [] ++ [uploadDoc "a.txt" maxFileSize "bbbbbbbbbbbbbbbbbbbbbbbb"
           (makeS3Key "bbbbbbbbbbbbbbbbbbbbbbbb" "uuid-1" "a.txt")
           (getMimeType "a.txt") "cccccccccccccccccccccccc" 3],
         [] ++ [makeS3Key "bbbbbbbbbbbbbbbbbbbbbbbb" "uuid-1" "a.txt"])
    ∧ uploadFile [] [] "bbbbbbbbbbbbbbbbbbbbbbbb" (some "a.txt")
        (some (List.replicate (maxFileSize + 1) (0 : UInt8))) "uuid-1"
        "cccccccccccccccccccccccc" 3
      = (.err ⟨413, "FILE_TOO_LARGE",
           "File size exceeds maximum limit of 52428800 bytes (50MB)"⟩, [], []) :=
  ⟨(upload_size_boundary [] [] "bbbbbbbbbbbbbbbbbbbbbbbb" "a.txt"
      (List.replicate maxFileSize 0) "uuid-1" "cccccccccccccccccccccccc" 3
      (by decide) (by decide)).1 (by simp) (by decide) (by simp),
   (upload_size_boundary [] [] "bbbbbbbbbbbbbbbbbbbbbbbb" "a.txt"
      (List.replicate (maxFileSize + 1) 0) "uuid-1" "cccccccccccccccccccccccc" 3
      (by decide) (by decide)).2 (by simp)⟩

/-! ## Claim C10 — default limit and skip -/

/-- C10: a `limit` query parameter that is absent, non-numeric, or
parses to 0 makes the effective limit 50 (files are returned, not zero
of them), and `limit=100` is accepted as-is since the rejection only
fires strictly above 100; likewise an absent or non-numeric `skip`
becomes 0. -/
theorem listFiles_default_limit
    (store : List FileRecord) (uid : String) (lp sp sbp sop : Option String)
    (hl : jsParseInt lp = none ∨ jsParseInt lp = some 0)
    (hs : jsParseInt sp = none ∨ jsParseInt sp = some 0) :
    (listLimit (getUserFiles store uid lp sp sbp sop) = some 50
      ∧ listSkip (getUserFiles store uid lp sp sbp sop) = some 0)
    ∧ listLimit (getUserFiles store uid (some "100") sp sbp sop) = some 100 := by
  have hlim : jsOrInt (jsParseInt lp) 50 = 50 := by
    rcases hl with h | h <;> simp [h, jsOrInt]
  have hskip : jsOrInt (jsParseInt sp) 0 = 0 := by
    rcases hs with h | h <;> simp [h, jsOrInt]
  have h100 : jsOrInt (jsParseInt (some "100")) 50 = 100 := by decide
  refine ⟨⟨?_, ?_⟩, ?_⟩ <;>
    simp [getUserFiles, hlim, hskip, h100, listLimit, listSkip]

/-- Witness for `listFiles_default_limit`: non-numeric `limit="abc"`,
absent `skip`. -/
theorem listFiles_default_limit_witness :
    (listLimit (getUserFiles [] "bbbbbbbbbbbbbbbbbbbbbbbb" (some "abc") none none none) = some 50
      ∧ listSkip (getUserFiles [] "bbbbbbbbbbbbbbbbbbbbbbbb" (some "abc") none none none) = some 0)
    ∧ listLimit (getUserFiles [] "bbbbbbbbbbbbbbbbbbbbbbbb" (some "100") none none none) = some 100 :=
  listFiles_default_limit [] "bbbbbbbbbbbbbbbbbbbbbbbb" (some "abc") none none none
    (Or.inl (by decide)) (Or.inl rfl)

/-! ## Claim C6 — email case-insensitivity -/

/-- If some stored user carries exactly the lowercased probe email and
emails are unique in the store, `findByEmail` returns that user. -/
theorem findByEmail_eq_of_lower
    (users : List UserRecord) (stored : UserRecord) (probe : String)
    (hmem : stored ∈ users) (hvar : strLower probe = stored.email)
    (huniq : ∀ u ∈ users, u.email = stored.email → u = stored) :
    findByEmail users probe = some stored := by
  unfold findByEmail
  have hsome : (users.find? (fun u => u.email = strLower probe)).isSome := by
    rw [List.find?_isSome]
    exact ⟨stored, hmem, by simp [hvar]⟩
  obtain ⟨x, hx⟩ := Option.isSome_iff_exists.mp hsome
  have hxmem := List.mem_of_find?_eq_some hx
  have hxp := List.find?_some hx
  simp only [decide_eq_true_eq] at hxp
  rw [hx, huniq x hxmem (by rw [hxp, hvar])]

/-- C6: with a user persisted under normalized email `stored.email`,
registering any case variant of it (with an otherwise valid password)
fails with 409 `EMAIL_EXISTS`; logging in with a case variant and the
correct password succeeds, issuing an access token for the stored user;
and a fresh registration persists its email lowercased and trimmed. -/
theorem email_case_insensitivity
    (users : List UserRecord) (stored : UserRecord)
    (variant pw regPw nid secret : String) (now : Nat)
    (hmem : stored ∈ users)
    (hvar : strLower variant = stored.email)
    (hvarne : variant ≠ "")
    (huniq : ∀ u ∈ users, u.email = stored.email → u = stored)
    (hshape : emailShapeValid variant = true)
    (hreg : passwordStrengthErrors regPw = []) (hregne : regPw ≠ "")
    (hpw : stored.passwordHash = hashPassword pw) (hpwne : pw ≠ "")
    (hid : stored.id ≠ "") :
    (register users (some variant) (some regPw) nid).1
        = .err ⟨409, "EMAIL_EXISTS", "User with this email already exists"⟩
    ∧ login users (some variant) (some pw) secret now
        = .ok (jwtSign ⟨stored.id, "access_token"⟩ secret now accessExpiresIn
            "auth-service" "microservices") stored.id stored.email
    ∧ (∀ raw nid2 pw2, emailShapeValid raw = true → raw ≠ "" →
        passwordStrengthErrors pw2 = [] → pw2 ≠ "" →
        findByEmail users raw = none →
        (register users (some raw) (some pw2) nid2).2
          = users ++ [{ id := nid2, email := strTrim (strLower raw),
                        passwordHash := hashPassword pw2 }]) := by
  have hfind := findByEmail_eq_of_lower users stored variant hmem hvar huniq
  refine ⟨?_, ?_, ?_⟩
  · simp [register, jsFalsyStr, hvarne, hregne, hshape, hreg, hfind]
  · simp [login, jsFalsyStr, hvarne, hpwne, hfind, comparePassword, hpw,
      generateToken, hid]
  · intro raw nid2 pw2 hs hr hp2 hp2ne hnone
    simp [register, jsFalsyStr, hr, hp2ne, hs, hp2, hnone]

/-- Witness for `email_case_insensitivity`: `a@b.com` registered, then
probed as `A@B.COM`. -/
theorem email_case_insensitivity_witness :
    (register [{ id := "u1", email := "a@b.com", passwordHash := hashPassword "pass123" }]
        (some "A@B.COM") (some "xyz999") "u2").1
        = .err ⟨409, "EMAIL_EXISTS", "User with this email already exists"⟩
    ∧ login [{ id := "u1", email := "a@b.com", passwordHash := hashPassword "pass123" }]
        (some "A@B.COM") (some "pass123") "shared-secret" 4
        = .ok (jwtSign ⟨"u1", "access_token"⟩ "shared-secret" 4 accessExpiresIn
            "auth-service" "microservices") "u1" "a@b.com" :=
  ⟨(email_case_insensitivity
      [{ id := "u1", email := "a@b.com", passwordHash := hashPassword "pass123" }]
      { id := "u1", email := "a@b.com", passwordHash := hashPassword "pass123" }
      "A@B.COM" "pass123" "xyz999" "u2" "shared-secret" 4
      (by decide) (by decide) (by decide) (by decide) (by decide) (by decide)
      (by decide) rfl (by decide) (by decide)).1,
   (email_case_insensitivity
      [{ id := "u1", email := "a@b.com", passwordHash := hashPassword "pass123" }]
      { id := "u1", email := "a@b.com", passwordHash := hashPassword "pass123" }
      "A@B.COM" "pass123" "xyz999" "u2" "shared-secret" 4
      (by decide) (by decide) (by decide) (by decide) (by decide) (by decide)
      (by decide) rfl (by decide) (by decide)).2.1⟩

/-! ## Sorting and pagination lemmas -/

theorem mem_insertBy (le : FileRecord → FileRecord → Bool) (x y : FileRecord) :
    ∀ l : List FileRecord, y ∈ insertBy le x l → y = x ∨ y ∈ l := by
  intro l
  induction l with
  | nil => simp [insertBy]
  | cons z zs ih =>
    simp only [insertBy]
    split
    · intro h
      rcases List.mem_cons.mp h with h | h
      · exact Or.inl h
      · exact Or.inr h
    · intro h
      rcases List.mem_cons.mp h with h | h
      · exact Or.inr (List.mem_cons.mpr (Or.inl h))
      · rcases ih h with h | h
        · exact Or.inl h
        · exact Or.inr (List.mem_cons.mpr (Or.inr h))

theorem mem_sortRecords (field : String) (asc : Bool) (y : FileRecord) :
    ∀ l : List FileRecord, y ∈ sortRecords field asc l → y ∈ l := by
  intro l
  unfold sortRecords
  induction l with
  | nil => simp
  | cons z zs ih =>
    simp only [List.foldr_cons]
    intro h
    rcases mem_insertBy _ _ _ _ h with h | h
    · exact List.mem_cons.mpr (Or.inl h)
    · exact List.mem_cons.mpr (Or.inr (ih h))

theorem length_insertBy (le : FileRecord → FileRecord → Bool) (x : FileRecord) :
    ∀ l : List FileRecord, (insertBy le x l).length = l.length + 1 := by
  intro l
  induction l with
  | nil => simp [insertBy]
  | cons z zs ih =>
    simp only [insertBy]
    split
    · simp
    · simp [ih]

theorem length_sortRecords (field : String) (asc : Bool) :
    ∀ l : List FileRecord, (sortRecords field asc l).length = l.length := by
  intro l
  unfold sortRecords
  induction l with
  | nil => simp
  | cons z zs ih => simp [List.foldr_cons, length_insertBy, ih]

/-- Every record the repository query returns is an active record of the
queried owner. -/
theorem mem_findByUserId (store : List FileRecord) (uid : String)
    (limit skip : Int) (sb : String) (asc : Bool) (g : FileRecord) :
    g ∈ findByUserId store uid limit skip sb asc →
      g ∈ store ∧ g.isActive = true ∧ g.userId = castId uid := by
  unfold findByUserId findByUser
  split
  · intro hg
    have hsorted : g ∈ sortRecords sb asc
        (store.filter (fun f => f.userId = castId uid && f.isActive)) := by
      rcases Decidable.em (limit = 0) with h0 | h0
      · rw [if_pos h0] at hg
        rcases Decidable.em (skip = 0) with hs | hs
        · rwa [if_pos hs] at hg
        · rw [if_neg hs] at hg
          exact List.drop_subset _ _ hg
      · rw [if_neg h0] at hg
        have := List.take_subset _ _ hg
        rcases Decidable.em (skip = 0) with hs | hs
        · rwa [if_pos hs] at this
        · rw [if_neg hs] at this
          exact List.drop_subset _ _ this
    have hfil := mem_sortRecords _ _ _ _ hsorted
    have := List.mem_filter.mp hfil
    simp only [Bool.and_eq_true, decide_eq_true_eq] at this
    exact ⟨this.1, this.2.2, this.2.1⟩
  · intro hg
    simp at hg

/-- With a truthy limit, the query returns at most `limit` records. -/
theorem findByUserId_length_le (store : List FileRecord) (uid : String)
    (limit skip : Int) (sb : String) (asc : Bool) (h0 : limit ≠ 0) :
    (findByUserId store uid limit skip sb asc).length ≤ limit.toNat := by
  simp only [findByUserId, findByUser]
  split
  · rw [List.length_take]
    exact min_le_left _ _
  · simp

/-- `parseInt(x) || d` with a nonzero default is never 0. -/
theorem jsOrInt_ne_zero (v : Option Int) (d : Int) (hd : d ≠ 0) :
    jsOrInt v d ≠ 0 := by
  cases v with
  | none => simpa [jsOrInt] using hd
  | some n =>
    simp only [jsOrInt]
    split
    · exact hd
    · assumption

/-- The success shape of `getUserFiles` when the limit passes the cap. -/
theorem getUserFiles_ok (store : List FileRecord) (uid : String)
    (lp sp sbp sop : Option String)
    (h : jsOrInt (jsParseInt lp) 50 ≤ 100) :
    getUserFiles store uid lp sp sbp sop
      = .ok { files := findByUserId store uid (jsOrInt (jsParseInt lp) 50)
                (jsOrInt (jsParseInt sp) 0)
                (if jsFalsyStr sbp then "uploadedAt" else sbp.getD "")
                (sop = some "asc"),
              total := countByUserId store uid,
              limit := jsOrInt (jsParseInt lp) 50,
              skip := jsOrInt (jsParseInt sp) 0,
              hasMore := decide ((jsOrInt (jsParseInt sp) 0
                + ((findByUserId store uid (jsOrInt (jsParseInt lp) 50)
                    (jsOrInt (jsParseInt sp) 0)
                    (if jsFalsyStr sbp then "uploadedAt" else sbp.getD "")
                    (sop = some "asc")).length : Int))
                < (countByUserId store uid : Int)),
              totalFiles := countByUserId store uid,
              totalSize := getTotalSizeByUserId store uid } := by
  simp only [getUserFiles]
  rw [if_neg (by omega)]

/-! ## Claim C8 — list pagination -/

/-- The six active files of the pagination scenario's user. -/
def demoStore : List FileRecord :=
  [ { id := "111111111111111111111111", filename := "f1.txt", originalName := "f1.txt",
      size := 10, userId := "bbbbbbbbbbbbbbbbbbbbbbbb", s3Key := "files/b/k1",
      s3Bucket := "file-service-bucket", mimeType := "text/plain",
      uploadedAt := 1, lastAccessedAt := 1, downloadCount := 0, isActive := true },
    { id := "222222222222222222222222", filename := "f2.txt", originalName := "f2.txt",
      size := 20, userId := "bbbbbbbbbbbbbbbbbbbbbbbb", s3Key := "files/b/k2",
      s3Bucket := "file-service-bucket", mimeType := "text/plain",
      uploadedAt := 2, lastAccessedAt := 2, downloadCount := 0, isActive := true },
    { id := "333333333333333333333333", filename := "f3.txt", originalName := "f3.txt",
      size := 30, userId := "bbbbbbbbbbbbbbbbbbbbbbbb", s3Key := "files/b/k3",
      s3Bucket := "file-service-bucket", mimeType := "text/plain",
      uploadedAt := 3, lastAccessedAt := 3, downloadCount := 0, isActive := true },
    { id := "444444444444444444444444", filename := "f4.txt", originalName := "f4.txt",
      size := 40, userId := "bbbbbbbbbbbbbbbbbbbbbbbb", s3Key := "files/b/k4",
      s3Bucket := "file-service-bucket", mimeType := "text/plain",
      uploadedAt := 4, lastAccessedAt := 4, downloadCount := 0, isActive := true },
    { id := "555555555555555555555555", filename := "f5.txt", originalName := "f5.txt",
      size := 50, userId := "bbbbbbbbbbbbbbbbbbbbbbbb", s3Key := "files/b/k5",
      s3Bucket := "file-service-bucket", mimeType := "text/plain",
      uploadedAt := 5, lastAccessedAt := 5, downloadCount := 0, isActive := true },
    { id := "666666666666666666666666", filename := "f6.txt", originalName := "f6.txt",
      size := 60, userId := "bbbbbbbbbbbbbbbbbbbbbbbb", s3Key := "files/b/k6",
      s3Bucket := "file-service-bucket", mimeType := "text/plain",
      uploadedAt := 6, lastAccessedAt := 6, downloadCount := 0, isActive := true } ]

/-- C8: a parsed `limit` above 100 yields 400 `LIMIT_TOO_HIGH`;
otherwise the response holds at most `limit` files, every one an active
file of the requester, with `hasMore = (skip + returned < total active
count)`; concretely, with 6 active files, `limit=3, skip=0` returns 3
files with `hasMore = true` and `limit=3, skip=3` returns 3 files with
`hasMore = false`. -/
theorem listFiles_pagination (store : List FileRecord) (uid : String)
    (lp sp sbp sop : Option String) :
    (100 < jsOrInt (jsParseInt lp) 50 →
      getUserFiles store uid lp sp sbp sop
        = .err ⟨400, "LIMIT_TOO_HIGH", "Limit cannot exceed 100"⟩)
    ∧ (jsOrInt (jsParseInt lp) 50 ≤ 100 →
      ∃ r, getUserFiles store uid lp sp sbp sop = .ok r
        ∧ r.files.length ≤ (jsOrInt (jsParseInt lp) 50).toNat
        ∧ (∀ f ∈ r.files, f.isActive = true ∧ f.userId = castId uid)
        ∧ r.hasMore = decide ((jsOrInt (jsParseInt sp) 0 + (r.files.length : Int))
            < (countByUserId store uid : Int)))
    ∧ (listFilesCount (getUserFiles demoStore "bbbbbbbbbbbbbbbbbbbbbbbb"
          (some "3") (some "0") none none) = 3
      ∧ listHasMore (getUserFiles demoStore "bbbbbbbbbbbbbbbbbbbbbbbb"
          (some "3") (some "0") none none) = some true
      ∧ listFilesCount (getUserFiles demoStore "bbbbbbbbbbbbbbbbbbbbbbbb"
          (some "3") (some "3") none none) = 3
      ∧ listHasMore (getUserFiles demoStore "bbbbbbbbbbbbbbbbbbbbbbbb"
          (some "3") (some "3") none none) = some false) := by
  refine ⟨?_, ?_, ?_, ?_, ?_, ?_⟩
  · intro h
    simp only [getUserFiles]
    rw [if_pos h]
  · intro h
    refine ⟨_, getUserFiles_ok store uid lp sp sbp sop h, ?_, ?_, rfl⟩
    · exact findByUserId_length_le store uid _ _ _ _
        (jsOrInt_ne_zero _ _ (by decide))
    · intro f hf
      exact (mem_findByUserId store uid _ _ _ _ f hf).2
  · decide
  · decide
  · decide
  · decide

/-- Witness for `listFiles_pagination`: `limit=200` is rejected with
`LIMIT_TOO_HIGH`. -/
theorem listFiles_pagination_witness :
    getUserFiles [] "bbbbbbbbbbbbbbbbbbbbbbbb" (some "200") none none none
      = .err ⟨400, "LIMIT_TOO_HIGH", "Limit cannot exceed 100"⟩ :=
  (listFiles_pagination [] "bbbbbbbbbbbbbbbbbbbbbbbb" (some "200") none none none).1
    (by decide)

/-! ## Claim C7 — file lifecycle -/

/-- The store-mutating operations reachable from the file controller and
repository. -/
inductive FileOp where
  | upload (filename originalName : String) (size : Nat)
      (userId s3Key s3Bucket mimeType newId : String) (now : Nat)
  | softDelete (fileId userId : String) (now : Nat)
  | hardDelete (fileId userId : String)
  | incDownload (fileId : String) (now : Nat)

/-- Effect of one operation on the `File` collection. -/
def applyOp (store : List FileRecord) : FileOp → List FileRecord
  | .upload fn orig sz uid key bkt mt nid now =>
    match createFile store fn orig sz uid key bkt mt nid now with
    | .ok r => r.2
    | .error _ => store
  | .softDelete fid uid now => (markAsDeleted store fid uid now).2
  | .hardDelete fid uid => (deleteById store fid uid).2
  | .incDownload fid now => (incrementDownloadCount store fid now).2

/-- Well-formedness the storage backend guarantees: a created `_id` is
fresh (Mongo's unique `_id` index). -/
def WfOp (store : List FileRecord) : FileOp → Prop
  | .upload _ _ _ _ _ _ _ nid _ => ∀ f ∈ store, f.id ≠ nid
  | _ => True

theorem mem_updateFirst (p : FileRecord → Bool) (u : FileRecord → FileRecord)
    (g : FileRecord) :
    ∀ l : List FileRecord, g ∈ (updateFirst p u l).2 →
      g ∈ l ∨ ∃ x ∈ l, p x = true ∧ g = u x := by
  intro l
  induction l with
  | nil => simp [updateFirst]
  | cons f fs ih =>
    simp only [updateFirst]
    split
    · intro h
      rcases List.mem_cons.mp h with h | h
      · exact Or.inr ⟨f, List.mem_cons_self f fs, by assumption, h⟩
      · exact Or.inl (List.mem_cons.mpr (Or.inr h))
    · intro h
      rcases List.mem_cons.mp h with h | h
      · exact Or.inl (List.mem_cons.mpr (Or.inl h))
      · rcases ih h with h | ⟨x, hx, hp, he⟩
        · exact Or.inl (List.mem_cons.mpr (Or.inr h))
        · exact Or.inr ⟨x, List.mem_cons.mpr (Or.inr hx), hp, he⟩

theorem updateFirst_map_id (p : FileRecord → Bool) (u : FileRecord → FileRecord)
    (hu : ∀ x, (u x).id = x.id) :
    ∀ l : List FileRecord,
      (updateFirst p u l).2.map FileRecord.id = l.map FileRecord.id := by
  intro l
  induction l with
  | nil => simp [updateFirst]
  | cons f fs ih =>
    simp only [updateFirst]
    split
    · simp [hu]
    · simp [ih]

theorem updateFirst_found (p : FileRecord → Bool) (u : FileRecord → FileRecord) :
    ∀ l : List FileRecord, (updateFirst p u l).1.isSome = true →
      ∃ l1 x l2, l = l1 ++ x :: l2 ∧ p x = true ∧
        (updateFirst p u l).2 = l1 ++ u x :: l2 := by
  intro l
  induction l with
  | nil => simp [updateFirst]
  | cons f fs ih =>
    simp only [updateFirst]
    split
    · intro _
      exact ⟨[], f, fs, rfl, by assumption, rfl⟩
    · intro h
      simp only [Option.isSome] at h
      obtain ⟨l1, x, l2, he, hp, hres⟩ := ih (by
        revert h
        cases (updateFirst p u fs).1 <;> simp)
      exact ⟨f :: l1, x, l2, by rw [he]; rfl, hp, by simp [hres]⟩

theorem mem_removeFirst (p : FileRecord → Bool) (g : FileRecord) :
    ∀ l : List FileRecord, g ∈ (removeFirst p l).2 → g ∈ l := by
  intro l
  induction l with
  | nil => simp [removeFirst]
  | cons f fs ih =>
    simp only [removeFirst]
    split
    · intro h
      exact List.mem_cons.mpr (Or.inr h)
    · intro h
      rcases List.mem_cons.mp h with h | h
      · exact List.mem_cons.mpr (Or.inl h)
      · exact List.mem_cons.mpr (Or.inr (ih h))

/-- Shape of a successful `FileRepository.create`: the persisted record
is the schema-defaulted document — in particular `isActive = true`, id
`newId` — appended to the collection. -/
theorem createFile_ok_shape
    (store : List FileRecord) (fn orig : String) (sz : Nat)
    (uid key bkt mt nid : String) (now : Nat) (doc : FileRecord)
    (store' : List FileRecord)
    (h : createFile store fn orig sz uid key bkt mt nid now = .ok (doc, store')) :
    doc.isActive = true ∧ doc.id = nid ∧ store' = store ++ [doc] := by
  simp only [createFile] at h
  split at h
  · simp at h
  split at h
  · simp at h
  split at h
  · simp at h
  split at h
  · simp at h
  split at h
  · simp at h
  split at h
  · simp at h
  rw [Except.ok.injEq, Prod.mk.injEq] at h
  obtain ⟨hd, hs⟩ := h
  subst hd
  exact ⟨rfl, rfl, hs.symm⟩

/-- What a successful soft delete means: some record matched the id, the
owner and the active flag; afterwards a record with that id is present
but inactive, and — ids being unique — every record with that id is
inactive. -/
theorem markAsDeleted_success
    (store : List FileRecord) (fid uid : String) (now : Nat)
    (hnodup : (store.map FileRecord.id).Nodup)
    (hsucc : (markAsDeleted store fid uid now).1 = true) :
    objectIdIsValid fid = true
    ∧ (∃ f ∈ store, f.id = castId fid ∧ f.userId = castId uid ∧ f.isActive = true)
    ∧ (∃ g ∈ (markAsDeleted store fid uid now).2, g.id = castId fid ∧ g.isActive = false)
    ∧ (∀ g ∈ (markAsDeleted store fid uid now).2, g.id = castId fid → g.isActive = false) := by
  unfold markAsDeleted at hsucc ⊢
  by_cases hg : (objectIdIsValid fid && objectIdIsValid uid) = true
  · rw [if_pos hg] at hsucc ⊢
    obtain ⟨l1, x, l2, he, hp, hres⟩ := updateFirst_found _ _ store hsucc
    simp only [Bool.and_eq_true, decide_eq_true_eq] at hp
    obtain ⟨⟨hid, hown⟩, hact⟩ := hp
    have hvalid : objectIdIsValid fid = true := by
      have hg2 := hg
      simp only [Bool.and_eq_true] at hg2
      exact hg2.1
    have hxmem : x ∈ store := by
      rw [he]
      exact List.mem_append.mpr (Or.inr (List.mem_cons_self x l2))
    have hnodup' : (l1.map FileRecord.id ++ x.id :: l2.map FileRecord.id).Nodup := by
      have := hnodup
      rw [he] at this
      simpa using this
    rcases List.nodup_append.mp hnodup' with ⟨_, hn2, hdisj⟩
    have hx1 : x.id ∉ l1.map FileRecord.id := fun hmem =>
      hdisj hmem (List.mem_cons_self _ _)
    have hx2 : x.id ∉ l2.map FileRecord.id := (List.nodup_cons.mp hn2).1
    refine ⟨hvalid, ⟨x, hxmem, hid, hown, hact⟩, ?_, ?_⟩
    · refine ⟨{ x with isActive := false, lastAccessedAt := now }, ?_, hid, rfl⟩
      rw [hres]
      exact List.mem_append.mpr (Or.inr (List.mem_cons_self _ _))
    · intro g hgmem hgid
      rw [hres] at hgmem
      rcases List.mem_append.mp hgmem with hg1 | hg2
      · exfalso
        apply hx1
        have hm : g.id ∈ l1.map FileRecord.id := List.mem_map_of_mem FileRecord.id hg1
        rwa [hgid, ← hid] at hm
      · rcases List.mem_cons.mp hg2 with hgu | hg2
        · rw [hgu]
        · exfalso
          apply hx2
          have hm : g.id ∈ l2.map FileRecord.id := List.mem_map_of_mem FileRecord.id hg2
          rwa [hgid, ← hid] at hm
  · rw [if_neg hg] at hsucc
    simp at hsucc

/-- C7: the `File` lifecycle. (i) An upload creates its record active
(`nonexistent → active`). (ii) No operation ever turns an inactive
record active again. (iii) An existing record survives every operation
except hard delete (`active → nonexistent` only via `deleteById`).
(iv) Records appear only through upload, entering active. (v) A
successful soft delete hits an active owned record, after which the
record is invisible to `listFiles` and to the ownership-scoped lookup of
`getDownloadUrl`/`deleteFile`, yet the including-inactive lookup still
finds it with `isActive = false`. -/
theorem file_lifecycle_state_machine
    (store : List FileRecord)
    (hnodup : (store.map FileRecord.id).Nodup) :
    (∀ fn orig sz uid key bkt mt nid now doc store',
      createFile store fn orig sz uid key bkt mt nid now = .ok (doc, store') →
      doc.isActive = true ∧ doc.id = nid ∧ store' = store ++ [doc])
    ∧ (∀ op, WfOp store op → ∀ f ∈ store, f.isActive = false →
        ∀ g ∈ applyOp store op, g.id = f.id → g.isActive = false)
    ∧ (∀ op, (∀ fid uid, op ≠ FileOp.hardDelete fid uid) →
        ∀ f ∈ store, ∃ g ∈ applyOp store op, g.id = f.id)
    ∧ (∀ op g, g ∈ applyOp store op →
        (∃ f ∈ store, f.id = g.id)
        ∨ (g.isActive = true ∧ ∃ fn orig sz uid key bkt mt nid now,
            op = FileOp.upload fn orig sz uid key bkt mt nid now))
    ∧ (∀ fid uid now, (markAsDeleted store fid uid now).1 = true →
        (∃ f ∈ store, f.id = castId fid ∧ f.userId = castId uid ∧ f.isActive = true)
        ∧ findByIdAndUserId (markAsDeleted store fid uid now).2 fid uid = none
        ∧ (∀ limit skip sb asc g,
            g ∈ findByUserId (markAsDeleted store fid uid now).2 uid limit skip sb asc →
            g.id ≠ castId fid)
        ∧ (∃ g, findByIdIncludingInactive (markAsDeleted store fid uid now).2 fid
            = some g ∧ g.isActive = false)) := by
  have hinj : ∀ a ∈ store, ∀ b ∈ store, a.id = b.id → a = b := by
    intro a ha b hb hab
    exact List.inj_on_of_nodup_map hnodup ha hb hab
  refine ⟨?_, ?_, ?_, ?_, ?_⟩
  · intro fn orig sz uid key bkt mt nid now doc store' h
    exact createFile_ok_shape store fn orig sz uid key bkt mt nid now doc store' h
  · intro op hwf f hf hinact g hg hgid
    cases op with
    | upload fn orig sz uid key bkt mt nid now =>
      simp only [applyOp] at hg
      split at hg
      · rename_i r heq
        obtain ⟨hact, hid, hsh⟩ := createFile_ok_shape store fn orig sz uid key bkt
          mt nid now r.1 r.2 (by rw [heq])
        rw [hsh] at hg
        rcases List.mem_append.mp hg with hg | hg
        · rw [hinj g hg f hf hgid]
          exact hinact
        · have hg1 : g = r.1 := by simpa using hg
          exfalso
          exact hwf f hf (by rw [← hgid, hg1, hid])
      · rw [hinj g hg f hf hgid]
        exact hinact
    | softDelete fid uid now =>
      simp only [applyOp, markAsDeleted] at hg
      split at hg
      · rcases mem_updateFirst _ _ _ _ hg with hmem | ⟨x, hx, hpx, hgu⟩
        · rw [hinj g hmem f hf hgid]
          exact hinact
        · rw [hgu]
      · rw [hinj g hg f hf hgid]
        exact hinact
    | hardDelete fid uid =>
      simp only [applyOp, deleteById] at hg
      split at hg
      · have hmem := mem_removeFirst _ _ _ hg
        rw [hinj g hmem f hf hgid]
        exact hinact
      · rw [hinj g hg f hf hgid]
        exact hinact
    | incDownload fid now =>
      simp only [applyOp, incrementDownloadCount] at hg
      split at hg
      · rcases mem_updateFirst _ _ _ _ hg with hmem | ⟨x, hx, hpx, hgu⟩
        · rw [hinj g hmem f hf hgid]
          exact hinact
        · have hxid : x.id = f.id := by
            rw [← hgid, hgu]
          have hxf : x = f := hinj x hx f hf hxid
          rw [hgu]
          show x.isActive = false
          rw [hxf]
          exact hinact
      · rw [hinj g hg f hf hgid]
        exact hinact
  · intro op hne f hf
    cases op with
    | upload fn orig sz uid key bkt mt nid now =>
      simp only [applyOp]
      split
      · rename_i r heq
        obtain ⟨_, _, hsh⟩ := createFile_ok_shape store fn orig sz uid key bkt
          mt nid now r.1 r.2 (by rw [heq])
        exact ⟨f, by rw [hsh]; exact List.mem_append.mpr (Or.inl hf), rfl⟩
      · exact ⟨f, hf, rfl⟩
    | softDelete fid uid now =>
      simp only [applyOp, markAsDeleted]
      split
      · have hmap := updateFirst_map_id
          (fun f => f.id = castId fid && f.userId = castId uid && f.isActive)
          (fun f => { f with isActive := false, lastAccessedAt := now })
          (fun x => rfl) store
        have hidmem : f.id ∈ store.map FileRecord.id :=
          List.mem_map_of_mem FileRecord.id hf
        rw [← hmap] at hidmem
        obtain ⟨g, hgmem, hgid⟩ := List.mem_map.mp hidmem
        exact ⟨g, hgmem, hgid⟩
      · exact ⟨f, hf, rfl⟩
    | hardDelete fid uid => exact absurd rfl (hne fid uid)
    | incDownload fid now =>
      simp only [applyOp, incrementDownloadCount]
      split
      · have hmap := updateFirst_map_id
          (fun f => f.id = castId fid)
          (fun f => { f with downloadCount := f.downloadCount + 1, lastAccessedAt := now })
          (fun x => rfl) store
        have hidmem : f.id ∈ store.map FileRecord.id :=
          List.mem_map_of_mem FileRecord.id hf
        rw [← hmap] at hidmem
        obtain ⟨g, hgmem, hgid⟩ := List.mem_map.mp hidmem
        exact ⟨g, hgmem, hgid⟩
      · exact ⟨f, hf, rfl⟩
  · intro op g hg
    cases op with
    | upload fn orig sz uid key bkt mt nid now =>
      simp only [applyOp] at hg
      split at hg
      · rename_i r heq
        obtain ⟨hact, hid, hsh⟩ := createFile_ok_shape store fn orig sz uid key bkt
          mt nid now r.1 r.2 (by rw [heq])
        rw [hsh] at hg
        rcases List.mem_append.mp hg with hg | hg
        · exact Or.inl ⟨g, hg, rfl⟩
        · have hg1 : g = r.1 := by simpa using hg
          exact Or.inr ⟨by rw [hg1]; exact hact,
            fn, orig, sz, uid, key, bkt, mt, nid, now, rfl⟩
      · exact Or.inl ⟨g, hg, rfl⟩
    | softDelete fid uid now =>
      simp only [applyOp, markAsDeleted] at hg
      split at hg
      · rcases mem_updateFirst _ _ _ _ hg with hmem | ⟨x, hx, hpx, hgu⟩
        · exact Or.inl ⟨g, hmem, rfl⟩
        · exact Or.inl ⟨x, hx, by rw [hgu]⟩
      · exact Or.inl ⟨g, hg, rfl⟩
    | hardDelete fid uid =>
      simp only [applyOp, deleteById] at hg
      split at hg
      · exact Or.inl ⟨g, mem_removeFirst _ _ _ hg, rfl⟩
      · exact Or.inl ⟨g, hg, rfl⟩
    | incDownload fid now =>
      simp only [applyOp, incrementDownloadCount] at hg
      split at hg
      · rcases mem_updateFirst _ _ _ _ hg with hmem | ⟨x, hx, hpx, hgu⟩
        · exact Or.inl ⟨g, hmem, rfl⟩
        · exact Or.inl ⟨x, hx, by rw [hgu]⟩
      · exact Or.inl ⟨g, hg, rfl⟩
  · intro fid uid now hsucc
    obtain ⟨hvalid, hbefore, hafterex, hallinact⟩ :=
      markAsDeleted_success store fid uid now hnodup hsucc
    refine ⟨hbefore, ?_, ?_, ?_⟩
    · apply findByIdAndUserId_eq_none
      rintro f hf ⟨h1, h2, h3⟩
      have := hallinact f hf h1
      rw [this] at h3
      exact Bool.noConfusion h3
    · intro limit skip sb asc g hg hgid
      obtain ⟨hgmem, hact, hown⟩ := mem_findByUserId _ _ _ _ _ _ g hg
      have := hallinact g hgmem hgid
      rw [this] at hact
      exact Bool.noConfusion hact
    · obtain ⟨g0, hg0mem, hg0id, hg0act⟩ := hafterex
      unfold findByIdIncludingInactive
      rw [if_pos hvalid]
      have hsome : ((markAsDeleted store fid uid now).2.find?
          (fun f => f.id = castId fid)).isSome := by
        rw [List.find?_isSome]
        exact ⟨g0, hg0mem, by simp [hg0id]⟩
      obtain ⟨g1, hg1⟩ := Option.isSome_iff_exists.mp hsome
      have hg1mem := List.mem_of_find?_eq_some hg1
      have hg1p := List.find?_some hg1
      simp only [decide_eq_true_eq] at hg1p
      exact ⟨g1, hg1, hallinact g1 hg1mem hg1p⟩

/-- Witness for `file_lifecycle_state_machine`: soft-deleting the single
demo file hides it from the scoped lookup yet keeps it findable,
inactive, by the including-inactive lookup. -/
theorem file_lifecycle_witness :
    findByIdAndUserId (markAsDeleted [demoAliasFile] "616161616161616161616161"
        "bbbbbbbbbbbbbbbbbbbbbbbb" 99).2 "616161616161616161616161"
        "bbbbbbbbbbbbbbbbbbbbbbbb" = none
    ∧ (∃ g, findByIdIncludingInactive (markAsDeleted [demoAliasFile]
        "616161616161616161616161" "bbbbbbbbbbbbbbbbbbbbbbbb" 99).2
        "616161616161616161616161" = some g ∧ g.isActive = false) :=
  ⟨((file_lifecycle_state_machine [demoAliasFile] (by decide)).2.2.2.2
      "616161616161616161616161" "bbbbbbbbbbbbbbbbbbbbbbbb" 99 (by decide)).2.1,
   ((file_lifecycle_state_machine [demoAliasFile] (by decide)).2.2.2.2
      "616161616161616161616161" "bbbbbbbbbbbbbbbbbbbbbbbb" 99 (by decide)).2.2.2⟩

end AuthFile
